import Mathlib

/-!
# Verification of the Balsam LSF scheduler adapter and processing service

This file gives a shallow embedding, in Lean, of the pure computational core of

* `balsam/platform/scheduler/lsf_sched.py` — duration parsing (`parse_clock`),
  submit-output parsing (`_parse_submit_output`), status-output parsing
  (`_parse_status_output`, `_parse_job_status`);
* `balsam/site/service/processing.py` — the transition boundary (`transition`),
  the sentinel scan (`read_pyapp_result`), the working-directory/stream
  context (`job_context`), and the shutdown ordering of
  `ProcessingService.join`;
* `balsam/_api/bases.py` — `BatchJobBase.validate`.

Python strings are modelled as `List Char`; fallible Python code (raising
`ValueError`, `KeyError`, `IndexError`, `NotImplementedError`, ...) is
modelled with `Except PyErr` or `Option`.  Python `int` is modelled by `Int`
(arbitrary precision, like Python).
-/

/-- Python exception kinds raised by the embedded code paths. -/
inductive PyErr
  | valueErrorColumns (actual expected : Nat)
  | valueErrorField (field : String)
  | validationError
  | notImplementedError
  | keyError
  | indexError
  | fileNotFound
  deriving DecidableEq, Repr

instance {ε α : Type} [DecidableEq ε] [DecidableEq α] : DecidableEq (Except ε α) := fun a b =>
  match a, b with
  | Except.ok x, Except.ok y =>
    if h : x = y then Decidable.isTrue (by rw [h]) else Decidable.isFalse (by simp [h])
  | Except.error x, Except.error y =>
    if h : x = y then Decidable.isTrue (by rw [h]) else Decidable.isFalse (by simp [h])
  | Except.ok _, Except.error _ => Decidable.isFalse (by simp)
  | Except.error _, Except.ok _ => Decidable.isFalse (by simp)

/-- The ASCII whitespace characters recognised by Python's `str.split()`
and `str.strip()` (space, tab, newline, carriage return, vertical tab,
form feed). -/
def isPySpace (c : Char) : Bool :=
  c = ' ' || c = '\t' || c = '\n' || c = '\r' || c = Char.ofNat 11 || c = Char.ofNat 12

/-- Python `s.split(sep)` for a one-character separator `sep`
(e.g. `t_str.split(":")`, `raw_output.split("\n")`): keeps empty pieces,
always returns at least one piece. -/
def splitOnChar (sep : Char) : List Char → List (List Char)
  | [] => [[]]
  | c :: rest =>
    let ts := splitOnChar sep rest
    if c = sep then [] :: ts else (c :: ts.headI) :: ts.tail

/-- Helper for `wsSplit`: `cur` is the (reversed) token being accumulated. -/
def wsSplitAux : List Char → List Char → List (List Char)
  | [], cur => if cur.isEmpty then [] else [cur.reverse]
  | c :: rest, cur =>
    if isPySpace c then
      if cur.isEmpty then wsSplitAux rest [] else cur.reverse :: wsSplitAux rest []
    else wsSplitAux rest (c :: cur)

/-- Python `s.split()` (split on whitespace runs, no empty pieces). -/
def wsSplit (cs : List Char) : List (List Char) :=
  wsSplitAux cs []

/-- Python `s.strip()` (remove leading and trailing whitespace). -/
def pyStrip (cs : List Char) : List Char :=
  ((cs.dropWhile isPySpace).reverse.dropWhile isPySpace).reverse

/-- Python substring containment `pat in s`. -/
def containsTok (pat : List Char) : List Char → Bool
  | [] => decide (pat = [])
  | c :: rest => pat.isPrefixOf (c :: rest) || containsTok pat rest

/-- Decimal value of a digit string. -/
def digitsVal (ds : List Char) : Nat :=
  ds.foldl (fun acc c => acc * 10 + (c.toNat - 48)) 0

/-- Python `int(s)` on a string: strips whitespace, accepts an optional
sign followed by at least one decimal digit; `none` models `ValueError`. -/
def pyIntTok (cs : List Char) : Option Int :=
  match pyStrip cs with
  | [] => none
  | c :: ds =>
    if c = '-' then
      if !ds.isEmpty && ds.all Char.isDigit then some (-(digitsVal ds : Int)) else none
    else if c = '+' then
      if !ds.isEmpty && ds.all Char.isDigit then some ((digitsVal ds : Int)) else none
    else if (c :: ds).all Char.isDigit then some ((digitsVal (c :: ds) : Int)) else none

/-- Python 3 `round(S / 60)` computed in exact arithmetic: nearest integer
to `S / 60`, ties going to the even integer (banker's rounding).  This is
exactly what CPython computes for `|S| < 2^52`, where the float `S / 60`
is close enough to the rational `S / 60` for rounding purposes. -/
def pyRound60 (S : Int) : Int :=
  let q := Int.ediv S 60
  let r := Int.emod S 60
  if r > 30 then q + 1
  else if r < 30 then q
  else if Int.emod q 2 = 0 then q else q + 1

/-- Embedding of `parse_clock` (lsf_sched.py lines 15-26): split the string
on `":"`; with 4/3/2 components read `D:H:M:S` / `H:M:S` / `M:S`; any other
shape leaves `D = H = M = S = 0`; the result is
`D*24*60 + H*60 + M + round(S/60)`.  `none` models the `ValueError` raised
by `int(...)` on a non-numeric component. -/
def parse_clock (t_str : List Char) : Option Int :=
  let parts := splitOnChar ':' t_str
  match parts with
  | [d, h, m, s] => do
    let D ← pyIntTok d
    let H ← pyIntTok h
    let M ← pyIntTok m
    let S ← pyIntTok s
    pure (D * 24 * 60 + H * 60 + M + pyRound60 S)
  | [h, m, s] => do
    let H ← pyIntTok h
    let M ← pyIntTok m
    let S ← pyIntTok s
    pure (0 * 24 * 60 + H * 60 + M + pyRound60 S)
  | [m, s] => do
    let M ← pyIntTok m
    let S ← pyIntTok s
    pure (0 * 24 * 60 + 0 * 60 + M + pyRound60 S)
  | _ => some (0 * 24 * 60 + 0 * 60 + 0 + pyRound60 0)

/-- C1 counterexample input: the duration string from the spec's example. -/
def clockExample : List Char := "01:02:03:30".toList

/-- Python `s.find(target, start)` for a one-character needle: the index of
the first occurrence at or after `start`, or `-1`. -/
def pyFindFrom (cs : List Char) (target : Char) (start : Nat) : Int :=
  match List.findIdx? (fun c => c = target) (cs.drop start) with
  | some i => ((start + i : Nat) : Int)
  | none => -1

/-- Python slice `s[a:b]` where `b` may be negative (counted from the end);
out-of-range bounds are clamped, an empty range gives `[]`. -/
def pySlice (cs : List Char) (a : Nat) (b : Int) : List Char :=
  let b' : Int := if b < 0 then b + (cs.length : Int) else b
  (cs.take b'.toNat).drop a

/-- Embedding of `LsfScheduler._parse_submit_output` (lsf_sched.py lines
160-168): take the slice from position `5 = len("Job <")` up to the first
`">"` at or after position 5 (Python `find` returns `-1` when absent, making
the slice end at the penultimate character) and try `int()` on it; on
`ValueError`, fall back to `int()` of the last whitespace-delimited token.
The fallback's own `IndexError`/`ValueError` propagate. -/
def parse_submit_output (submit_output : List Char) : Except PyErr Int :=
  let e := pyFindFrom submit_output '>' 5
  match pyIntTok (pySlice submit_output 5 e) with
  | some n => Except.ok n
  | none =>
    match (wsSplit submit_output).getLast? with
    | none => Except.error PyErr.indexError
    | some tok =>
      match pyIntTok tok with
      | some n => Except.ok n
      | none => Except.error (PyErr.valueErrorField "int")

/-- C8 counterexample input: submit output without the `Job <...>` pattern. -/
def submitExample : List Char := "Job 12345".toList

/-- Modelled from the spec: `schemas.AllowedQueue` (not under `src/`) — a
queue's submission limits, the two fields read by `validate`. -/
structure AllowedQueue where
  max_nodes : Int
  max_walltime : Int
  deriving DecidableEq, Repr

/-- Modelled from the spec: `schemas.BatchJobPartition` (not under `src/`) —
a sub-allocation of a batch job: job mode, node count, filter tags. -/
structure BatchJobPartition where
  job_mode : String
  num_nodes : Int
  filter_tags : List (String × String)
  deriving DecidableEq, Repr

/-- The fields of a `BatchJob` read by `BatchJobBase.validate`
(bases.py lines 51-90). -/
structure BatchJob where
  queue : String
  project : String
  num_nodes : Int
  wall_time_min : Int
  partitions : Option (List BatchJobPartition)
  optional_params : List (String × String)
  deriving DecidableEq, Repr

/-- The partition condition of `validate` (bases.py lines 82-84): Python's
`if self.partitions:` is true for a non-`None`, non-empty list, and the
error fires when the partition node counts do not sum to `num_nodes`. -/
def partitionsMismatch (bj : BatchJob) : Bool :=
  match bj.partitions with
  | none => false
  | some parts =>
    !parts.isEmpty && decide ((parts.map BatchJobPartition.num_nodes).sum ≠ bj.num_nodes)

/-- The `optional_params` keys not among the allowed extras
(bases.py lines 86-89). -/
def extraneousParams (opts allowed : List (String × String)) : List String :=
  (opts.map Prod.fst).filter (fun k => !(allowed.map Prod.fst).contains k)

/-- Embedding of `BatchJobBase.validate` (bases.py lines 64-90): raise
(`Except.error` with the message) at the first violated check — unknown
queue, `num_nodes` above the queue maximum, `num_nodes < 1`, `wall_time_min`
above the queue maximum, unknown project, partition sizes not summing to
`num_nodes`, extraneous `optional_params` — else return normally. -/
def validate (bj : BatchJob) (allowed_queues : List (String × AllowedQueue))
    (allowed_projects : List String)
    (optional_batch_job_params : List (String × String)) : Except String Unit :=
  match allowed_queues.lookup bj.queue with
  | none => Except.error ("Unknown queue " ++ bj.queue)
  | some queue =>
    if bj.num_nodes > queue.max_nodes then
      Except.error "num_nodes exceeds queue max num_nodes"
    else if bj.num_nodes < 1 then
      Except.error "self size must be at least 1 node"
    else if bj.wall_time_min > queue.max_walltime then
      Except.error "wall_time_min exceeds queue max wall_time_min"
    else if bj.project ∉ allowed_projects then
      Except.error ("Unknown project " ++ bj.project)
    else if partitionsMismatch bj then
      Except.error "Sum of partition sizes must equal batchjob num_nodes"
    else if extraneousParams bj.optional_params optional_batch_job_params ≠ [] then
      Except.error "Extraneous optional_params"
    else Except.ok ()

/-- C5 counterexample input: a batch job satisfying every condition the
claim lists, but with `num_nodes = 0`. -/
def zeroNodeBatchJob : BatchJob :=
  { queue := "debug", project := "datascience", num_nodes := 0, wall_time_min := 10,
    partitions := none, optional_params := [] }

/-- C5 counterexample input: the allowed-queues map. -/
def demoQueues : List (String × AllowedQueue) :=
  [("debug", { max_nodes := 8, max_walltime := 60 })]

/-- Modelled from the spec: the canonical job lifecycle states
(`schemas.JobState`, not under `src/`).  The states named in processing.py
(`staged_in`, `run_done`, `run_error`, `run_timeout`, `failed`) are included
verbatim, together with the other lifecycle phases the spec describes. -/
inductive JobState
  | created
  | awaiting_parents
  | ready
  | staged_in
  | preprocessed
  | running
  | run_done
  | run_error
  | run_timeout
  | postprocessed
  | failed
  | restart_ready
  | job_finished
  | deleted
  deriving DecidableEq, Repr

/-- The job fields touched by `transition` (processing.py lines 44-63):
canonical state and the opaque `state_data` payload (a string-keyed dict). -/
structure Job where
  id : Nat
  state : JobState
  state_data : List (String × String)
  deriving DecidableEq, Repr

/-- An application definition as seen by `transition`: the bound job plus the
four per-state handler methods.  A handler is modelled as returning the
mutated job snapshot together with `some msg` when it raises an exception
(mutations made before the raise persist, as in Python) and `none` on normal
return. -/
structure ApplicationDefinition where
  job : Job
  preprocess : Job → Job × Option String
  postprocess : Job → Job × Option String
  handle_error : Job → Job × Option String
  handle_timeout : Job → Job × Option String

/-- The four handler slots named in `transition`'s dispatch dict. -/
inductive HandlerKind
  | preprocess
  | postprocess
  | handle_error
  | handle_timeout
  deriving DecidableEq, Repr

/-- `transition_func.__name__` for each handler slot. -/
def handlerName : HandlerKind → String
  | HandlerKind.preprocess => "preprocess"
  | HandlerKind.postprocess => "postprocess"
  | HandlerKind.handle_error => "handle_error"
  | HandlerKind.handle_timeout => "handle_timeout"

/-- The dispatch dict of `transition` (processing.py lines 46-51), keyed by
job state; `none` models the `KeyError` of indexing with an unbound state. -/
def transition_func_table : JobState → Option HandlerKind
  | JobState.staged_in => some HandlerKind.preprocess
  | JobState.run_done => some HandlerKind.postprocess
  | JobState.run_error => some HandlerKind.handle_error
  | JobState.run_timeout => some HandlerKind.handle_timeout
  | _ => none

/-- Select the handler method of `app` for a handler slot. -/
def appHandler (app : ApplicationDefinition) : HandlerKind → (Job → Job × Option String)
  | HandlerKind.preprocess => app.preprocess
  | HandlerKind.postprocess => app.postprocess
  | HandlerKind.handle_error => app.handle_error
  | HandlerKind.handle_timeout => app.handle_timeout

/-- The `state_data` payload written at the transition boundary on a handler
exception (processing.py lines 60-63): the message carries the handler's
name, the `exception` key carries the exception text. -/
def failData (hk : HandlerKind) (exc : String) : List (String × String) :=
  [("message", "An exception occured in " ++ handlerName hk), ("exception", exc)]

/-- Embedding of `transition` (processing.py lines 44-63): look up the handler
bound to the job's current state (a `KeyError` escapes for unbound states; the
worker only reaches the four bound states), run it; on normal return the
mutated job snapshot is the output; on exception, force the job into the
terminal `failed` state with `state_data := failData`, and do not propagate. -/
def transition (app : ApplicationDefinition) : Except PyErr ApplicationDefinition :=
  match transition_func_table app.job.state with
  | none => Except.error PyErr.keyError
  | some hk =>
    match appHandler app hk app.job with
    | (j1, none) => Except.ok { app with job := j1 }
    | (j1, some exc) =>
      Except.ok { app with job :=
        { j1 with state := JobState.failed, state_data := failData hk exc } }

/-- The four states the ProcessingService job source acquires
(processing.py line 158), i.e. every state a worker can see. -/
def processingWorkerStates : List JobState :=
  [JobState.staged_in, JobState.run_done, JobState.run_error, JobState.run_timeout]

/-- File-open modes; `job_context` opens the per-job log in append mode. -/
inductive OpenMode
  | read
  | write
  | append
  deriving DecidableEq, Repr

/-- Where a process-level output stream points: the original process stream
(abstract descriptor) or an opened file. -/
inductive StreamTarget
  | std (fd : Nat)
  | file (path : List String) (mode : OpenMode)
  deriving DecidableEq, Repr

/-- The process state touched by `job_context`: working directory, the set
of existing directories, and the two output streams.  Paths are lists of
components. -/
structure Sys where
  cwd : List String
  dirs : List (List String)
  stdoutTarget : StreamTarget
  stderrTarget : StreamTarget
  deriving DecidableEq, Repr

/-- `os.chdir(p)`: `none` models `FileNotFoundError` for an absent dir. -/
def chdir (s : Sys) (p : List String) : Option Sys :=
  if p ∈ s.dirs then some { s with cwd := p } else none

/-- `p.mkdir(parents=True, exist_ok=True)`: create the directory and all its
missing ancestors. -/
def mkdirParents (s : Sys) (p : List String) : Sys :=
  { s with dirs := p :: (((List.range p.length).map (fun k => p.take k)) ++ s.dirs) }

/-- The state in which `job_context` runs its body: after the
chdir-or-create-then-chdir (processing.py lines 27-31) and the stream
redirection into the append-mode log file (lines 34-36).  The second
`chdir` after `mkdir` always succeeds, so the `getD` default is
unreachable. -/
def jobContextEnter (workdir : List String) (stdout_filename : String) (s0 : Sys) : Sys :=
  let s1 := match chdir s0 workdir with
    | some s' => s'
    | none => (chdir (mkdirParents s0 workdir) workdir).getD (mkdirParents s0 workdir)
  { s1 with
    stdoutTarget := StreamTarget.file (workdir ++ [stdout_filename]) OpenMode.append,
    stderrTarget := StreamTarget.file (workdir ++ [stdout_filename]) OpenMode.append }

/-- Embedding of `job_context` (processing.py lines 22-41) as a state
transformer: save the original streams and cwd, enter the job context, run
the body, and in the `finally` block restore the saved cwd and streams —
also when the body raised (`Except.error`), whose outcome is passed
through unchanged. -/
def job_context {α : Type} (workdir : List String) (stdout_filename : String)
    (body : Sys → Sys × Except String α) (s0 : Sys) : Sys × Except String α :=
  let old_stdout := s0.stdoutTarget
  let old_stderr := s0.stderrTarget
  let old_cwd := s0.cwd
  let s2 := jobContextEnter workdir stdout_filename s0
  let (s3, outcome) := body s2
  ({ s3 with cwd := old_cwd, stdoutTarget := old_stdout, stderrTarget := old_stderr }, outcome)

/-- Models a Python `datetime` as produced by
`datetime.strptime(t, "%m/%d %H:%M:%S")` (year-less LSF timestamp). -/
structure PyDateTime where
  month : Nat
  day : Nat
  hour : Nat
  minute : Nat
  second : Nat
  deriving DecidableEq, Repr

/-- A 1-2 digit numeric field of a `strptime` pattern. -/
def twoDigit? (cs : List Char) : Option Nat :=
  if cs ≠ [] ∧ cs.length ≤ 2 ∧ cs.all Char.isDigit then some (digitsVal cs) else none

/-- Models `parse_datetime` (lsf_sched.py lines 30-31), i.e. Python's
`datetime.strptime(t_str, "%m/%d %H:%M:%S")`; `none` models the
`ValueError` on a malformed timestamp. -/
def parse_datetime (t : List Char) : Option PyDateTime :=
  match splitOnChar ' ' t with
  | [dpart, tpart] =>
    match splitOnChar '/' dpart, splitOnChar ':' tpart with
    | [mo, dy], [h, mi, s] => do
      let M ← twoDigit? mo
      let D ← twoDigit? dy
      let H ← twoDigit? h
      let Mi ← twoDigit? mi
      let S ← twoDigit? s
      if 1 ≤ M ∧ M ≤ 12 ∧ 1 ≤ D ∧ D ≤ 31 ∧ H ≤ 23 ∧ Mi ≤ 59 ∧ S ≤ 61 then
        some { month := M, day := D, hour := H, minute := Mi, second := S }
      else none
    | _, _ => none
  | _ => none

/-- The mutable `status` dict accumulated by `_parse_job_status`: every
Balsam field that `_status_field_map` can set, each optional (absent until
assigned). -/
structure StatusDict where
  state : Option (List Char) := none
  scheduler_id : Option Int := none
  username : Option (List Char) := none
  queue : Option (List Char) := none
  project : Option (List Char) := none
  num_nodes : Option Int := none
  wall_time_min : Option Int := none
  time_remaining_min : Option Int := none
  start_time : Option PyDateTime := none
  queue_time : Option PyDateTime := none
  jobname : Option (List Char) := none
  deriving DecidableEq, Repr

/-- One `status[name] = func(value)` assignment of `_parse_job_status`
(lsf_sched.py lines 259-262), with the per-field converters of
`_status_field_map` (lines 94-109): `int` for ids, `int` with a `"-"` escape
for node counts, `parse_clock` for durations, `parse_datetime` for
timestamps, `str` for text fields; a name with no converter is skipped
(`priority`, `message`); `none` models the converter raising. -/
def applyField (st : StatusDict) (name : String) (v : List Char) : Option StatusDict :=
  if name = "scheduler_id" then (pyIntTok v).map (fun n => { st with scheduler_id := some n })
  else if name = "state" then some { st with state := some v }
  else if name = "username" then some { st with username := some v }
  else if name = "queue" then some { st with queue := some v }
  else if name = "num_nodes" then
    (if v = ['-'] then some { st with num_nodes := some 0 }
     else (pyIntTok v).map (fun n => { st with num_nodes := some n }))
  else if name = "wall_time_min" then
    (parse_clock v).map (fun n => { st with wall_time_min := some n })
  else if name = "start_time" then
    (parse_datetime v).map (fun d => { st with start_time := some d })
  else if name = "queue_time" then
    (parse_datetime v).map (fun d => { st with queue_time := some d })
  else if name = "time_remaining_min" then
    (parse_clock v).map (fun n => { st with time_remaining_min := some n })
  else if name = "project" then some { st with project := some v }
  else if name = "jobname" then some { st with jobname := some v }
  else some st

/-- The `for name, value in zip(status_fields, fields)` loop of
`_parse_job_status`. -/
def applyAll (st : StatusDict) : List (String × List Char) → Except PyErr StatusDict
  | [] => Except.ok st
  | (n, v) :: rest =>
    match applyField st n v with
    | none => Except.error (PyErr.valueErrorField n)
    | some st2 => applyAll st2 rest

/-- Modelled from the spec: the canonical scheduler job-status DTO
(`SchedulerJobStatus` in `scheduler.py`, not under `src/`): scheduler id,
canonical state, queue, project, node count, wall-time / remaining minutes,
optional start time and job name. -/
structure SchedulerJobStatus where
  scheduler_id : Int
  state : List Char
  queue : List Char
  project : List Char
  num_nodes : Int
  wall_time_min : Int
  time_remaining_min : Int
  start_time : Option PyDateTime
  jobname : Option (List Char)
  deriving DecidableEq, Repr

/-- `SchedulerJobStatus(**status)`: construction requires the seven core
fields (every parse path seeds or fills them); extra dict keys (`username`,
`queue_time`) are ignored by the DTO. -/
def mkStatus (st : StatusDict) : Except PyErr SchedulerJobStatus :=
  match st.scheduler_id, st.state, st.queue, st.project, st.num_nodes,
      st.wall_time_min, st.time_remaining_min with
  | some i, some s, some q, some p, some n, some w, some t =>
    Except.ok {
      scheduler_id := i
      state := s
      queue := q
      project := p
      num_nodes := n
      wall_time_min := w
      time_remaining_min := t
      start_time := st.start_time
      jobname := st.jobname }
  | _, _, _, _, _, _, _ => Except.error PyErr.validationError

/-- Embedding of `LsfScheduler._parse_job_status` (lsf_sched.py lines
251-263): a hard `ValueError` naming actual and expected column counts when
the field count mismatches, else apply every field converter and build the
DTO. -/
def parse_job_status (fields : List (List Char)) (status_fields : List String)
    (status : StatusDict) : Except PyErr SchedulerJobStatus :=
  if fields.length ≠ status_fields.length then
    Except.error (PyErr.valueErrorColumns fields.length status_fields.length)
  else
    match applyAll status (status_fields.zip fields) with
    | Except.error e => Except.error e
    | Except.ok st2 => mkStatus st2

/-- The keys of `_status_run_fields` (lsf_sched.py lines 57-66), in dict
order. -/
def status_run_fields : List String :=
  ["scheduler_id", "username", "queue", "project", "num_nodes",
   "time_remaining_min", "start_time", "jobname"]

/-- The keys of `_status_pend_fields` (lsf_sched.py lines 70-80). -/
def status_pend_fields : List String :=
  ["scheduler_id", "username", "queue", "project", "num_nodes",
   "wall_time_min", "queue_time", "priority", "jobname"]

/-- The keys of `_status_block_fields` (lsf_sched.py lines 82-90). -/
def status_block_fields : List String :=
  ["scheduler_id", "username", "queue", "project", "num_nodes",
   "wall_time_min", "message"]

/-- The section state of the `_parse_status_output` loop: `state = None`
with all of `run`/`pend`/`block` false initially (`start`), else exactly one
flag set — the code always updates the state string and the three flags
together. -/
inductive ScanMode
  | start
  | run
  | pend
  | block
  deriving DecidableEq, Repr

/-- Python `" ".join(ls)`. -/
def joinSpace (ls : List (List Char)) : List Char := List.intercalate [' '] ls

/-- The datetime rejoin for running/pending lines (lsf_sched.py lines
210-214 / 222-226): `fields[0:6] + [" ".join(fields[6:8])] + fields[8:]`. -/
def rejoinDateTime (fields : List (List Char)) : List (List Char) :=
  fields.take 6 ++ (joinSpace ((fields.drop 6).take 2) :: fields.drop 8)

/-- The block-reason rejoin for blocked lines (lines 234-237):
`fields[0:6] + [" ".join(fields[6:])]`. -/
def rejoinBlock (fields : List (List Char)) : List (List Char) :=
  fields.take 6 ++ [joinSpace (fields.drop 6)]

/-- The pre-seeded status dict for a running line (lines 215-219). -/
def runSeed : StatusDict :=
  { state := some "running".toList, wall_time_min := some 0, queue := some "batch".toList }

/-- The pre-seeded status dict for an eligible line (lines 227-231). -/
def pendSeed : StatusDict :=
  { state := some "queued".toList, time_remaining_min := some 0,
    queue := some "batch".toList }

/-- The pre-seeded status dict for a blocked line (lines 238-243). -/
def blockSeed : StatusDict :=
  { state := some "submit_failed".toList, time_remaining_min := some 0,
    wall_time_min := some 0, queue := some "batch".toList }

/-- Handling of one data line of `_parse_status_output`: whitespace-split,
rejoin per section, and `_parse_job_status` against the section's field set
and seed; a data line before any recognised separator
(`run = pend = block = False`) raises `NotImplementedError`
(lsf_sched.py lines 207-246). -/
def parseDataLine (mode : ScanMode) (line : List Char) : Except PyErr SchedulerJobStatus :=
  let fields := wsSplit line
  match mode with
  | ScanMode.run => parse_job_status (rejoinDateTime fields) status_run_fields runSeed
  | ScanMode.pend => parse_job_status (rejoinDateTime fields) status_pend_fields pendSeed
  | ScanMode.block => parse_job_status (rejoinBlock fields) status_block_fields blockSeed
  | ScanMode.start => Except.error PyErr.notImplementedError

/-- Section dispatch on a `----` separator line (lsf_sched.py lines
187-204): `Running` / `Eligible` / `Blocked` substring checks in that order;
anything else raises `NotImplementedError`. -/
def sepMode (line : List Char) : Except PyErr ScanMode :=
  if containsTok "Running".toList line then Except.ok ScanMode.run
  else if containsTok "Eligible".toList line then Except.ok ScanMode.pend
  else if containsTok "Blocked".toList line then Except.ok ScanMode.block
  else Except.error PyErr.notImplementedError

/-- `status_dict[k] = v` for a Python dict modelled as an insertion-ordered
association list: replace in place, else append. -/
def dictInsert (d : List (Int × SchedulerJobStatus)) (k : Int) (v : SchedulerJobStatus) :
    List (Int × SchedulerJobStatus) :=
  match d with
  | [] => [(k, v)]
  | (k2, v2) :: rest => if k2 = k then (k, v) :: rest else (k2, v2) :: dictInsert rest k v

/-- `line.startswith("----")`. -/
def isSepLine (l : List Char) : Bool := ("----".toList).isPrefixOf l

/-- `line.startswith("JobID")`. -/
def isHeaderLine (l : List Char) : Bool := ("JobID".toList).isPrefixOf l

/-- The `for line in job_lines` loop of `_parse_status_output`
(lsf_sched.py lines 186-248), carrying the section mode and the
accumulated status dict. -/
def parseLoop (mode : ScanMode) (acc : List (Int × SchedulerJobStatus)) :
    List (List Char) → Except PyErr (List (Int × SchedulerJobStatus))
  | [] => Except.ok acc
  | line :: rest =>
    if isSepLine line then
      match sepMode line with
      | Except.error e => Except.error e
      | Except.ok m2 => parseLoop m2 acc rest
    else if isHeaderLine line then parseLoop mode acc rest
    else
      match parseDataLine mode line with
      | Except.error e => Except.error e
      | Except.ok st => parseLoop mode (dictInsert acc st.scheduler_id st) rest

/-- Embedding of `LsfScheduler._parse_status_output` (lsf_sched.py lines
170-249): strip the raw output, split it into lines, and run the section
loop starting with no section and an empty status dict. -/
def parse_status_output (raw : String) : Except PyErr (List (Int × SchedulerJobStatus)) :=
  parseLoop ScanMode.start [] (splitOnChar '\n' (pyStrip raw.toList))

/-- The scheduler id of a successful line parse. -/
def statusIdOf : Except PyErr SchedulerJobStatus → Option Int
  | Except.ok st => some st.scheduler_id
  | Except.error _ => none

/-- A separator line routed to the Running section. -/
@[reducible]
def RunSepLine (l : List Char) : Prop :=
  isSepLine l = true ∧ containsTok "Running".toList l = true

/-- A separator line routed to the Eligible section. -/
@[reducible]
def EligSepLine (l : List Char) : Prop :=
  isSepLine l = true ∧ containsTok "Running".toList l = false ∧
    containsTok "Eligible".toList l = true

/-- A separator line routed to the Blocked section. -/
@[reducible]
def BlockSepLine (l : List Char) : Prop :=
  isSepLine l = true ∧ containsTok "Running".toList l = false ∧
    containsTok "Eligible".toList l = false ∧ containsTok "Blocked".toList l = true

/-- A column-header line (skipped by the loop). -/
@[reducible]
def HeaderLine (l : List Char) : Prop :=
  isSepLine l = false ∧ isHeaderLine l = true

/-- A well-formed data line of section `mode` whose parsed record has
scheduler id `i`. -/
@[reducible]
def GoodDataLine (mode : ScanMode) (l : List Char) (i : Int) : Prop :=
  isSepLine l = false ∧ isHeaderLine l = false ∧
    statusIdOf (parseDataLine mode l) = some i

/-- C6 witness input: the Running section separator. -/
def wSep1 : List Char := "---- Running Jobs: 1 ----".toList

/-- C6 witness input: the Running section header. -/
def wHdr1 : List Char := "JobID User Queue Project Nodes Remain StartTime JobName".toList

/-- C6 witness input: one running data line. -/
def wRun1 : List Char := "697013 parton batch CSC388 1 19:35 01/27 16:28:13 jobA".toList

/-- C6 witness input: the Eligible section separator. -/
def wSep2 : List Char := "---- Eligible Jobs: 1 ----".toList

/-- C6 witness input: the Eligible section header. -/
def wHdr2 : List Char :=
  "JobID User Queue Project Nodes Walltime QueueTime Priority JobName".toList

/-- C6 witness input: one eligible data line. -/
def wPend1 : List Char := "696996 parton batch CSC388 1 20:00 01/27 16:12:21 504.00 jobB".toList

/-- C6 witness input: the Blocked section separator. -/
def wSep3 : List Char := "---- Blocked Jobs: 1 ----".toList

/-- C6 witness input: the Blocked section header. -/
def wHdr3 : List Char := "JobID User Queue Project Nodes Walltime BlockReason".toList

/-- C6 witness input: one blocked data line. -/
def wBlock1 : List Char := "696000 parton batch CSC388 1 20:00 user held".toList

/-- C6 witness input: the whole status output text. -/
def wStatusRaw : String :=
  "---- Running Jobs: 1 ----\nJobID User Queue Project Nodes Remain StartTime JobName\n697013 parton batch CSC388 1 19:35 01/27 16:28:13 jobA\n---- Eligible Jobs: 1 ----\nJobID User Queue Project Nodes Walltime QueueTime Priority JobName\n696996 parton batch CSC388 1 20:00 01/27 16:12:21 504.00 jobB\n---- Blocked Jobs: 1 ----\nJobID User Queue Project Nodes Walltime BlockReason\n696000 parton batch CSC388 1 20:00 user held"

/-- The Balsam application types distinguished by `read_pyapp_result`
(processing.py line 67): the sentinel scan applies only to Python-function
apps. -/
inductive AppType
  | py_func
  | shell_cmd
  deriving DecidableEq, Repr

/-- The two `JobUpdate` fields written by the sentinel scan.  `none` models
an unset field (pydantic `exclude_unset`), `some []` an explicitly empty
string. -/
structure UpdateModel where
  serialized_return_value : Option (List Char) := none
  serialized_exception : Option (List Char) := none
  deriving DecidableEq, Repr

/-- Result of the line scan in `read_pyapp_result` (processing.py lines
75-86): the first line containing either marker wins, with the return-value
marker checked first on each line. -/
inductive ScanResult
  | retLine (l : List Char)
  | excLine (l : List Char)
  | noneFound
  deriving DecidableEq, Repr

/-- The return-value sentinel marker. -/
def ret_marker : List Char := "BALSAM-RETURN-VALUE".toList

/-- The exception sentinel marker. -/
def exc_marker : List Char := "BALSAM-EXCEPTION".toList

/-- The `for line in fp` loop of `read_pyapp_result` with its `break`s. -/
def scanLines : List (List Char) → ScanResult
  | [] => ScanResult.noneFound
  | l :: rest =>
    if containsTok ret_marker l then ScanResult.retLine l
    else if containsTok exc_marker l then ScanResult.excLine l
    else scanLines rest

/-- `line[line.find(pat):]` for a line that contains `pat`: drop everything
before the first occurrence of `pat`. -/
def dropToSub (pat : List Char) : List Char → List Char
  | [] => []
  | c :: rest => if pat.isPrefixOf (c :: rest) then c :: rest else dropToSub pat rest

/-- Python `s.split(None, 1)`: the first whitespace-delimited token and the
remainder with its leading whitespace stripped; the remainder entry is
omitted when nothing but whitespace follows the token. -/
def splitMax1 (cs : List Char) : List (List Char) :=
  match cs.dropWhile isPySpace with
  | [] => []
  | c :: rest =>
    let tok := c :: rest.takeWhile (fun d => !isPySpace d)
    let rest2 := (rest.dropWhile (fun d => !isPySpace d)).dropWhile isPySpace
    if rest2.isEmpty then [tok] else [tok, rest2]

/-- Embedding of `read_pyapp_result` (processing.py lines 66-102): return
unchanged unless the app is a Python-function app, the post-transition state
is one of the two result-bearing states (`run_done`, `run_error`), and the
`job.out` log exists (`jobOut = some lines`).  Then materialise the update
model (`JobUpdate()` when absent), scan for the first sentinel line, and set
`serialized_return_value := payload, serialized_exception := ""` for a
return-value sentinel — symmetrically for an exception sentinel.  The
payload is `split(None, 1)[1]` of the line from the marker on;
`PyErr.indexError` models the `[1]` on a payload-less sentinel line. -/
def read_pyapp_result (app_type : AppType) (state : JobState)
    (jobOut : Option (List (List Char))) (upd0 : Option UpdateModel) :
    Except PyErr (Option UpdateModel) :=
  if app_type ≠ AppType.py_func then Except.ok upd0
  else if state ≠ JobState.run_done ∧ state ≠ JobState.run_error then Except.ok upd0
  else match jobOut with
  | none => Except.ok upd0
  | some lines =>
    let upd := upd0.getD {}
    match scanLines lines with
    | ScanResult.retLine l =>
      match splitMax1 (dropToSub ret_marker l) with
      | [_, payload] =>
        Except.ok (some { upd with
          serialized_return_value := some payload,
          serialized_exception := some [] })
      | _ => Except.error PyErr.indexError
    | ScanResult.excLine l =>
      match splitMax1 (dropToSub exc_marker l) with
      | [_, payload] =>
        Except.ok (some { upd with
          serialized_exception := some payload,
          serialized_return_value := some [] })
      | _ => Except.error PyErr.indexError
    | ScanResult.noneFound => Except.ok (some upd)

/-- C4 witness input: a `job.out` line carrying a return-value sentinel. -/
def pyappDemoLine : List Char := "BALSAM-RETURN-VALUE gAU=".toList

/-- The ordered effects of `ProcessingService.join` (processing.py lines
190-196): join each worker in turn, only then terminate the status updater,
then join the job source and the status updater. -/
inductive SvcEvent
  | joinWorker (w : Nat)
  | terminateUpdater
  | joinSource
  | joinUpdater
  deriving DecidableEq, Repr

/-- The trace of calls made by `ProcessingService.join` for a pool of
`numWorkers` workers, in program order. -/
def joinTrace (numWorkers : Nat) : List SvcEvent :=
  ((List.range numWorkers).map SvcEvent.joinWorker) ++
    [SvcEvent.terminateUpdater, SvcEvent.joinSource, SvcEvent.joinUpdater]

/-- Events of a whole processing-service shutdown, for the ordering
argument: a worker enqueues a status update (`put`), exits its loop
(`wexit`), its process join returns (`joined`); the pool terminates the
updater (`terminate`). -/
inductive GEvent
  | put (w : Nat)
  | wexit (w : Nat)
  | joined (w : Nat)
  | terminate
  deriving DecidableEq, Repr

/-- Event `e` occupies position `i` of trace `tr`. -/
@[reducible]
def At (tr : List GEvent) (i : Nat) (e : GEvent) : Prop := tr.get? i = some e

/-- C3 witness input: a one-worker shutdown trace — the worker enqueues its
final update, exits, is joined, and only then is the updater terminated. -/
def demoShutdownTrace : List GEvent :=
  [GEvent.put 0, GEvent.wexit 0, GEvent.joined 0, GEvent.terminate]

/-- C2 witness input: a job entering the transition in `staged_in`. -/
def raisingJob : Job := { id := 7, state := JobState.staged_in, state_data := [] }

/-- C2 witness input: an application whose `preprocess` handler raises. -/
def raisingApp : ApplicationDefinition :=
  { job := raisingJob,
    preprocess := fun j => (j, some "boom"),
    postprocess := fun j => (j, none),
    handle_error := fun j => (j, none),
    handle_timeout := fun j => (j, none) }

theorem splitOnChar_of_not_mem {sep : Char} {xs : List Char} (h : sep ∉ xs) :
    splitOnChar sep xs = [xs] := by
  induction xs with
  | nil => rfl
  | cons c rest ih =>
    have hc : c ≠ sep := fun hcc => h (hcc ▸ List.mem_cons_self c rest)
    have hr : sep ∉ rest := fun hm => h (List.mem_cons_of_mem _ hm)
    simp [splitOnChar, hc, ih hr]

theorem splitOnChar_append_sep {sep : Char} {xs : List Char} (ys : List Char)
    (h : sep ∉ xs) :
    splitOnChar sep (xs ++ sep :: ys) = xs :: splitOnChar sep ys := by
  induction xs with
  | nil => simp [splitOnChar]
  | cons c rest ih =>
    have hc : c ≠ sep := fun hcc => h (hcc ▸ List.mem_cons_self c rest)
    have hr : sep ∉ rest := fun hm => h (List.mem_cons_of_mem _ hm)
    simp [splitOnChar, hc, ih hr]

/-- C1 (counterexample): the claim asserts `parse_clock("01:02:03:30") = 1564`
(seconds rounded to the nearest minute with halves rounded up).  The code
uses Python 3 `round`, which rounds halves to even: `round(30/60) = 0`, so
the result is `1*1440 + 2*60 + 3 + 0 = 1563 ≠ 1564`. -/
theorem parse_clock_claim_false :
    parse_clock clockExample = some 1563 ∧ (1563 : Int) ≠ 1564 := by
  constructor
  · decide
  · decide

/-- C1 (amended): for colon-free components that `int()` accepts, the shapes
`M:S`, `H:M:S`, `D:H:M:S` parse to `D*1440 + H*60 + M` plus the seconds
rounded to the nearest minute with ties to even (Python 3 `round`); a
single-component string `S` parses to `0` (its value is ignored, since no
destructuring branch of `parse_clock` fires for one component). -/
theorem parse_clock_amended :
    (∀ t : List Char, ':' ∉ t → parse_clock t = some 0) ∧
    (∀ (mt st : List Char) (M S : Int), ':' ∉ mt → ':' ∉ st →
      pyIntTok mt = some M → pyIntTok st = some S →
      parse_clock (mt ++ ':' :: st) = some (M + pyRound60 S)) ∧
    (∀ (ht mt st : List Char) (H M S : Int), ':' ∉ ht → ':' ∉ mt → ':' ∉ st →
      pyIntTok ht = some H → pyIntTok mt = some M → pyIntTok st = some S →
      parse_clock (ht ++ ':' :: (mt ++ ':' :: st)) = some (H * 60 + M + pyRound60 S)) ∧
    (∀ (dt ht mt st : List Char) (D H M S : Int), ':' ∉ dt → ':' ∉ ht → ':' ∉ mt → ':' ∉ st →
      pyIntTok dt = some D → pyIntTok ht = some H → pyIntTok mt = some M → pyIntTok st = some S →
      parse_clock (dt ++ ':' :: (ht ++ ':' :: (mt ++ ':' :: st))) =
        some (D * 1440 + H * 60 + M + pyRound60 S)) := by
  refine ⟨?_, ?_, ?_, ?_⟩
  · intro t ht
    simp [parse_clock, splitOnChar_of_not_mem ht, pyRound60]
    decide
  · intro mt st M S hm hs hM hS
    rw [parse_clock, splitOnChar_append_sep _ hm, splitOnChar_of_not_mem hs]
    simp [hM, hS]
  · intro ht mt st H M S hh hm hs hH hM hS
    rw [parse_clock, splitOnChar_append_sep _ hh, splitOnChar_append_sep _ hm,
      splitOnChar_of_not_mem hs]
    simp [hH, hM, hS]
  · intro dt ht mt st D H M S hd hh hm hs hD hH hM hS
    rw [parse_clock, splitOnChar_append_sep _ hd, splitOnChar_append_sep _ hh,
      splitOnChar_append_sep _ hm, splitOnChar_of_not_mem hs]
    simp [hD, hH, hM, hS]
    ring_nf

/-- C1 witness: the amended theorem applied to the spec's example input,
giving `1*1440 + 2*60 + 3 + round(30/60) = 1563`. -/
theorem parse_clock_amended_witness :
    parse_clock ("01".toList ++ ':' :: ("02".toList ++ ':' :: ("03".toList ++ ':' :: "30".toList))) =
      some (1 * 1440 + 2 * 60 + 3 + pyRound60 30) :=
  parse_clock_amended.2.2.2 "01".toList "02".toList "03".toList "30".toList 1 2 3 30
    (by decide) (by decide) (by decide) (by decide)
    (by decide) (by decide) (by decide) (by decide)

/-- A character for which `isPySpace` holds is not a decimal digit. -/
theorem space_not_digit {c : Char} (h : isPySpace c = true) : c.isDigit = false := by
  simp only [isPySpace, Bool.or_eq_true, decide_eq_true_eq] at h
  rcases h with ((((h | h) | h) | h) | h) | h <;> subst h <;> decide

/-- A decimal digit is not Python whitespace. -/
theorem digit_not_space {c : Char} (h : c.isDigit = true) : isPySpace c = false := by
  cases hsp : isPySpace c with
  | false => rfl
  | true => rw [space_not_digit hsp] at h; exact absurd h (by simp)

theorem dropWhile_eq_self_of {p : α → Bool} {l : List α} (h : ∀ a ∈ l, p a = false) :
    l.dropWhile p = l := by
  cases l with
  | nil => rfl
  | cons a t =>
    rw [List.dropWhile_cons, h a (List.mem_cons_self a t)]
    simp

theorem pyStrip_of_no_space {t : List Char} (h : ∀ c ∈ t, isPySpace c = false) :
    pyStrip t = t := by
  unfold pyStrip
  rw [dropWhile_eq_self_of h,
    dropWhile_eq_self_of (fun c hc => h c (List.mem_reverse.mp hc)), List.reverse_reverse]

/-- `int()` succeeds on a non-empty all-digit token and returns its decimal
value. -/
theorem pyIntTok_digits {t : List Char} (hne : t ≠ [])
    (h : ∀ c ∈ t, c.isDigit = true) : pyIntTok t = some ((digitsVal t : Nat) : Int) := by
  have hs : pyStrip t = t := pyStrip_of_no_space (fun c hc => digit_not_space (h c hc))
  match t, hne with
  | c :: cs, _ =>
    have hcd : c.isDigit = true := h c (List.mem_cons_self c cs)
    have h1 : ¬(c = '-') := by rintro rfl; exact absurd hcd (by decide)
    have h2 : ¬(c = '+') := by rintro rfl; exact absurd hcd (by decide)
    have hall : (c :: cs).all Char.isDigit = true := by
      rw [List.all_eq_true]; exact h
    unfold pyIntTok
    rw [hs]
    simp only [h1, h2, if_false, hall, if_true]

theorem findIdx?_first {p : α → Bool} :
    ∀ (xs : List α) (a : α) (ys : List α), (∀ x ∈ xs, p x = false) → p a = true →
      List.findIdx? p (xs ++ a :: ys) = some xs.length
  | [], a, ys, _, ha => by simp [List.findIdx?, ha]
  | x :: xs, a, ys, h, ha => by
    have hx : p x = false := h x (List.mem_cons_self x xs)
    have ih := findIdx?_first xs a ys (fun y hy => h y (List.mem_cons_of_mem _ hy)) ha
    simp [List.findIdx?_cons, hx, List.findIdx?_succ, ih]

/-- C8 (counterexample): on `"Job 12345"` the `Job <...>` delimiter pattern
is absent and the last whitespace-delimited token is `12345`, yet the code
returns `234`: `find(">", 5)` gives `-1`, so the tried slice is `s[5:-1] =
"234"`, which already parses as an integer, and the fallback never runs. -/
theorem parse_submit_claim_false :
    containsTok "Job <".toList submitExample = false ∧
    (wsSplit submitExample).getLast? = some "12345".toList ∧
    parse_submit_output submitExample = Except.ok 234 ∧ (234 : Int) ≠ 12345 := by
  refine ⟨by decide, by decide, ?_, by decide⟩
  decide

/-- C8 (amended): when the output starts with `Job <` followed by a digit
string and `>`, `_parse_submit_output` returns the enclosed id; when `int()`
fails on the slice between position 5 and the first `">"` at or after
position 5 (the penultimate position when `">"` is absent), it returns the
last whitespace-delimited token of the output parsed as an integer. -/
theorem parse_submit_amended :
    (∀ (ds rest : List Char), ds ≠ [] → (∀ c ∈ ds, c.isDigit = true) →
      parse_submit_output ("Job <".toList ++ ds ++ '>' :: rest) =
        Except.ok ((digitsVal ds : Nat) : Int)) ∧
    (∀ (out tok : List Char) (n : Int),
      pyIntTok (pySlice out 5 (pyFindFrom out '>' 5)) = none →
      (wsSplit out).getLast? = some tok → pyIntTok tok = some n →
      parse_submit_output out = Except.ok n) := by
  constructor
  · intro ds rest hne hdig
    have hlen5 : ("Job <".toList).length = 5 := by decide
    have hnogt : ∀ c ∈ ds, (fun c => decide (c = '>')) c = false := by
      intro c hc
      have := hdig c hc
      simp only [decide_eq_false_iff_not]
      rintro rfl
      exact absurd this (by decide)
    have hfind : pyFindFrom ("Job <".toList ++ ds ++ '>' :: rest) '>' 5 =
        ((5 + ds.length : Nat) : Int) := by
      unfold pyFindFrom
      rw [show ("Job <".toList ++ ds ++ '>' :: rest).drop 5 = ds ++ '>' :: rest by
        rw [← hlen5]; exact List.drop_left _ _]
      rw [findIdx?_first ds '>' rest hnogt (by decide)]
    have hslice : pySlice ("Job <".toList ++ ds ++ '>' :: rest) 5
        ((5 + ds.length : Nat) : Int) = ds := by
      unfold pySlice
      have hnotneg : ¬(((5 + ds.length : Nat) : Int) < 0) :=
        not_lt.mpr (Int.natCast_nonneg _)
      simp only [hnotneg, if_false]
      rw [Int.toNat_natCast]
      rw [show "Job <".toList ++ ds ++ '>' :: rest = ("Job <".toList ++ ds) ++ '>' :: rest by
        simp]
      rw [show (5 + ds.length : Nat) = ("Job <".toList ++ ds).length by
        rw [List.length_append, hlen5]]
      rw [show (("Job <".toList ++ ds) ++ '>' :: rest).take ("Job <".toList ++ ds).length =
        "Job <".toList ++ ds from List.take_left _ _]
      rw [← hlen5]
      exact List.drop_left _ _
    simp only [parse_submit_output, hfind, hslice, pyIntTok_digits hne hdig]
  · intro out tok n h1 h2 h3
    simp only [parse_submit_output, h1, h2, h3]

/-- C8 witness: the amended theorem applied to a concrete well-formed
submission output, extracting the enclosed id `12345`. -/
theorem parse_submit_amended_witness :
    parse_submit_output ("Job <".toList ++ "12345".toList ++ '>' :: " to batch".toList) =
      Except.ok ((digitsVal "12345".toList : Nat) : Int) ∧
    ((digitsVal "12345".toList : Nat) : Int) = 12345 :=
  ⟨parse_submit_amended.1 "12345".toList " to batch".toList (by decide) (by decide),
   by decide⟩

/-- C5 (counterexample): the claim says `validate` raises exactly when one of
queue-unknown / project-unknown / node-count-above-max / wall-time-above-max /
partition-sum-mismatch holds, so `zeroNodeBatchJob` (known queue and project,
`0 ≤ 8` nodes, `10 ≤ 60` wall-time, no partitions) should pass — but the code
also rejects `num_nodes < 1` (and extraneous `optional_params`), raising
"self size must be at least 1 node". -/
theorem validate_claim_false :
    (demoQueues.lookup zeroNodeBatchJob.queue).isSome = true ∧
    zeroNodeBatchJob.project ∈ ["datascience"] ∧
    zeroNodeBatchJob.num_nodes ≤ 8 ∧
    zeroNodeBatchJob.wall_time_min ≤ 60 ∧
    zeroNodeBatchJob.partitions = none ∧
    validate zeroNodeBatchJob demoQueues ["datascience"] [] =
      Except.error "self size must be at least 1 node" := by
  refine ⟨by decide, by decide, by decide, by decide, by decide, by decide⟩

/-- C5 (amended): `validate` returns normally exactly when the queue is in the
allowed-queues map, the node count does not exceed the queue maximum, the node
count is at least 1, the wall-time does not exceed the queue maximum, the
project is in the allowed-projects list, any present non-empty partition list
sums to the node count, and there are no extraneous optional parameters; in
every other case it raises a descriptive error and no value is silently
clamped into range. -/
theorem validate_ok_iff (bj : BatchJob) (qs : List (String × AllowedQueue))
    (ps : List String) (opts : List (String × String)) :
    validate bj qs ps opts = Except.ok () ↔
      ∃ q, qs.lookup bj.queue = some q ∧
        ¬(bj.num_nodes > q.max_nodes) ∧ ¬(bj.num_nodes < 1) ∧
        ¬(bj.wall_time_min > q.max_walltime) ∧ bj.project ∈ ps ∧
        partitionsMismatch bj = false ∧
        extraneousParams bj.optional_params opts = [] := by
  unfold validate
  cases hq : qs.lookup bj.queue with
  | none => simp
  | some q =>
    dsimp only
    constructor
    · intro h
      split_ifs at h with h1 h2 h3 h4 h5 h6
      any_goals simp at h
      have h5' : partitionsMismatch bj = false := by simpa using h5
      exact ⟨q, rfl, h1, h2, h3, h4, h5', not_not.mp h6⟩
    · rintro ⟨q', hq', hh1, hh2, hh3, hh4, hh5, hh6⟩
      have h0 : q = q' := Option.some_inj.mp hq'
      subst h0
      rw [if_neg hh1, if_neg hh2, if_neg hh3, if_neg (not_not_intro hh4),
        if_neg (by simp [hh5]), if_neg (not_not_intro hh6)]

/-- Helper for C2: for every bound state the transition returns a value
(no exception escapes), whatever the handler does. -/
theorem transition_total_of_bound (app : ApplicationDefinition) (hk : HandlerKind)
    (hb : transition_func_table app.job.state = some hk) :
    ∃ a, transition app = Except.ok a := by
  rcases happ : appHandler app hk app.job with ⟨j1, exc⟩
  cases exc with
  | none =>
    refine ⟨{ app with job := j1 }, ?_⟩
    unfold transition
    rw [hb]
    dsimp only
    rw [happ]
  | some e =>
    refine ⟨{ app with job :=
      { j1 with state := JobState.failed, state_data := failData hk e } }, ?_⟩
    unfold transition
    rw [hb]
    dsimp only
    rw [happ]

/-- C2: if the handler bound to the job's state raises, `transition` returns
normally with the job forced into the terminal `failed` state and
`state_data` carrying the handler's name and the exception message; and for
every state the worker can reach (the four bound states), `transition` never
lets an exception escape. -/
theorem transition_catches_handler_exceptions :
    (∀ (app : ApplicationDefinition) (hk : HandlerKind) (j1 : Job) (exc : String),
      transition_func_table app.job.state = some hk →
      appHandler app hk app.job = (j1, some exc) →
      transition app = Except.ok { app with job :=
        { j1 with state := JobState.failed, state_data := failData hk exc } }) ∧
    (∀ app : ApplicationDefinition, app.job.state ∈ processingWorkerStates →
      ∃ a, transition app = Except.ok a) := by
  constructor
  · intro app hk j1 exc hb hr
    unfold transition
    rw [hb]
    dsimp only
    rw [hr]
  · intro app hmem
    have h4 : app.job.state = JobState.staged_in ∨ app.job.state = JobState.run_done ∨
        app.job.state = JobState.run_error ∨ app.job.state = JobState.run_timeout := by
      simpa [processingWorkerStates] using hmem
    rcases h4 with h | h | h | h
    · exact transition_total_of_bound app HandlerKind.preprocess (by rw [h]; rfl)
    · exact transition_total_of_bound app HandlerKind.postprocess (by rw [h]; rfl)
    · exact transition_total_of_bound app HandlerKind.handle_error (by rw [h]; rfl)
    · exact transition_total_of_bound app HandlerKind.handle_timeout (by rw [h]; rfl)

/-- C2 witness: running `transition` on `raisingApp` (whose bound handler
raises `"boom"`) yields the `failed` job with the failure payload. -/
theorem transition_catches_handler_exceptions_witness :
    transition raisingApp = Except.ok ({ raisingApp with job :=
      { raisingJob with
        state := JobState.failed,
        state_data := failData HandlerKind.preprocess "boom" } }) :=
  transition_catches_handler_exceptions.1 raisingApp HandlerKind.preprocess raisingJob "boom"
    rfl rfl

/-- Helper for C9: inside the context the working directory is the job's
workdir (created when absent). -/
theorem jobContextEnter_cwd (workdir : List String) (fname : String) (s0 : Sys) :
    (jobContextEnter workdir fname s0).cwd = workdir := by
  unfold jobContextEnter chdir mkdirParents
  by_cases hmem : workdir ∈ s0.dirs <;> simp [hmem]

/-- Helper for C9: inside the context the workdir exists. -/
theorem jobContextEnter_dirs (workdir : List String) (fname : String) (s0 : Sys) :
    workdir ∈ (jobContextEnter workdir fname s0).dirs := by
  unfold jobContextEnter chdir mkdirParents
  by_cases hmem : workdir ∈ s0.dirs <;> simp [hmem]

/-- C9: `job_context` runs its body in a state whose working directory is the
job's workdir (which exists, having been created if absent) and whose
stdout/stderr both point at the per-job append-mode log file; and whatever
the body does — return normally or raise — the final state restores the
original working directory and the original stdout/stderr streams, with the
body's outcome passed through. -/
theorem job_context_frame {α : Type} (workdir : List String) (fname : String)
    (body : Sys → Sys × Except String α) (s0 : Sys) :
    ∃ sIn : Sys,
      sIn.cwd = workdir ∧
      workdir ∈ sIn.dirs ∧
      sIn.stdoutTarget = StreamTarget.file (workdir ++ [fname]) OpenMode.append ∧
      sIn.stderrTarget = StreamTarget.file (workdir ++ [fname]) OpenMode.append ∧
      job_context workdir fname body s0 =
        ({ (body sIn).1 with
           cwd := s0.cwd
           stdoutTarget := s0.stdoutTarget
           stderrTarget := s0.stderrTarget }, (body sIn).2) := by
  refine ⟨jobContextEnter workdir fname s0,
    jobContextEnter_cwd workdir fname s0,
    jobContextEnter_dirs workdir fname s0, rfl, rfl, ?_⟩
  simp only [job_context]

/-- C3: (1) in the trace of `ProcessingService.join`, every worker join
precedes the `status_updater.terminate()` call — the updater is never
terminated before every worker has been joined; (2) in any shutdown trace
where each worker's enqueues precede its exit, its exit precedes the return
of its join, every join-return precedes the terminate call (which (1)
establishes for the code), and every enqueuing worker is eventually exited
and joined, no status update is enqueued after the updater is terminated. -/
theorem join_orders_updater_after_workers :
    (∀ (n i j w : Nat),
      (joinTrace n).get? i = some (SvcEvent.joinWorker w) →
      (joinTrace n).get? j = some SvcEvent.terminateUpdater → i < j) ∧
    (∀ (tr : List GEvent),
      (∀ w i j, At tr i (GEvent.put w) → At tr j (GEvent.wexit w) → i < j) →
      (∀ w i j, At tr i (GEvent.wexit w) → At tr j (GEvent.joined w) → i < j) →
      (∀ w i j, At tr i (GEvent.joined w) → At tr j GEvent.terminate → i < j) →
      (∀ w i, At tr i (GEvent.put w) →
        (∃ j, At tr j (GEvent.wexit w)) ∧ (∃ k, At tr k (GEvent.joined w))) →
      ∀ w i j, At tr i (GEvent.put w) → At tr j GEvent.terminate → i < j) := by
  constructor
  · intro n i j w hi hj
    unfold joinTrace at hi hj
    have hlen : ((List.range n).map SvcEvent.joinWorker).length = n := by simp
    have hi_lt : i < n := by
      by_contra hge
      push_neg at hge
      rw [List.get?_eq_getElem?,
        List.getElem?_append_right (by simpa [hlen] using hge), hlen] at hi
      rcases hk : i - n with _ | _ | _ | k <;> rw [hk] at hi <;> simp at hi
    have hj_ge : n ≤ j := by
      by_contra hlt
      push_neg at hlt
      rw [List.get?_eq_getElem?,
        List.getElem?_append_left (by simpa [hlen] using hlt),
        List.getElem?_map, List.getElem?_range hlt] at hj
      simp at hj
    exact lt_of_lt_of_le hi_lt hj_ge
  · intro tr hex hjn hterm hcomp w i j hput hstop
    obtain ⟨⟨je, hje⟩, ⟨ke, hke⟩⟩ := hcomp w i hput
    exact lt_trans (lt_trans (hex w i je hput hje) (hjn w je ke hje hke))
      (hterm w ke j hke hstop)

/-- C3 witness: both parts of the ordering theorem applied to concrete
inputs — a two-worker `join` trace and the one-worker shutdown trace. -/
theorem join_orders_updater_after_workers_witness :
    ((joinTrace 2).get? 0 = some (SvcEvent.joinWorker 0) ∧
     (joinTrace 2).get? 2 = some SvcEvent.terminateUpdater ∧ (0 : Nat) < 2) ∧
    (At demoShutdownTrace 0 (GEvent.put 0) ∧ At demoShutdownTrace 3 GEvent.terminate ∧
     (0 : Nat) < 3) := by
  constructor
  · exact ⟨by decide, by decide,
      join_orders_updater_after_workers.1 2 0 2 0 (by decide) (by decide)⟩
  · refine ⟨by decide, by decide, ?_⟩
    refine join_orders_updater_after_workers.2 demoShutdownTrace ?_ ?_ ?_ ?_ 0 0 3
      (by decide) (by decide)
    · intro w i j hi hj
      rcases i with _ | _ | _ | _ | i <;> rcases j with _ | _ | _ | _ | j <;>
        simp_all [At, demoShutdownTrace, List.get?]
    · intro w i j hi hj
      rcases i with _ | _ | _ | _ | i <;> rcases j with _ | _ | _ | _ | j <;>
        simp_all [At, demoShutdownTrace, List.get?]
    · intro w i j hi hj
      rcases i with _ | _ | _ | _ | i <;> rcases j with _ | _ | _ | _ | j <;>
        simp_all [At, demoShutdownTrace, List.get?]
    · intro w i hi
      rcases i with _ | _ | _ | _ | i
      · have hw : (0 : Nat) = w := by simpa [At, demoShutdownTrace] using hi
        subst hw
        exact ⟨⟨1, by decide⟩, ⟨2, by decide⟩⟩
      · exact absurd hi (by simp [At, demoShutdownTrace])
      · exact absurd hi (by simp [At, demoShutdownTrace])
      · exact absurd hi (by simp [At, demoShutdownTrace])
      · exact absurd hi (by simp [At, demoShutdownTrace, List.get?])

/-- Helper for C4: the remainder component of a one-split is non-empty. -/
theorem splitMax1_payload_ne_nil {cs tok payload : List Char}
    (h : splitMax1 cs = [tok, payload]) : payload ≠ [] := by
  unfold splitMax1 at h
  rcases hds : cs.dropWhile isPySpace with _ | ⟨c, rest⟩ <;> rw [hds] at h
  · simp at h
  · dsimp only at h
    split at h
    · simp at h
    · next hne =>
      obtain ⟨-, h2⟩ := by simpa using h
      subst h2
      intro hc
      rw [hc] at hne
      simp at hne

/-- C4: for a Python-function app in a result-bearing post-transition state
whose log's first sentinel line is a return-value sentinel carrying a
payload, the update gets a non-empty serialized return value and an empty
serialized exception; symmetrically for an exception sentinel; and in any
other post-transition state `read_pyapp_result` leaves the update model
untouched (neither field set). -/
theorem read_pyapp_result_sentinels :
    (∀ (state : JobState) (lines : List (List Char)) (upd0 : Option UpdateModel)
        (l m payload : List Char),
      (state = JobState.run_done ∨ state = JobState.run_error) →
      scanLines lines = ScanResult.retLine l →
      splitMax1 (dropToSub ret_marker l) = [m, payload] →
      ∃ u, read_pyapp_result AppType.py_func state (some lines) upd0 =
          Except.ok (some u) ∧
        u.serialized_return_value = some payload ∧ payload ≠ [] ∧
        u.serialized_exception = some []) ∧
    (∀ (state : JobState) (lines : List (List Char)) (upd0 : Option UpdateModel)
        (l m payload : List Char),
      (state = JobState.run_done ∨ state = JobState.run_error) →
      scanLines lines = ScanResult.excLine l →
      splitMax1 (dropToSub exc_marker l) = [m, payload] →
      ∃ u, read_pyapp_result AppType.py_func state (some lines) upd0 =
          Except.ok (some u) ∧
        u.serialized_exception = some payload ∧ payload ≠ [] ∧
        u.serialized_return_value = some []) ∧
    (∀ (app_type : AppType) (state : JobState) (jobOut : Option (List (List Char)))
        (upd0 : Option UpdateModel),
      state ≠ JobState.run_done → state ≠ JobState.run_error →
      read_pyapp_result app_type state jobOut upd0 = Except.ok upd0) := by
  refine ⟨?_, ?_, ?_⟩
  · intro state lines upd0 l m payload hstate hscan hsplit
    have hcond : ¬(state ≠ JobState.run_done ∧ state ≠ JobState.run_error) := by
      rcases hstate with h | h <;> simp [h]
    unfold read_pyapp_result
    rw [if_neg (by simp), if_neg hcond]
    dsimp only
    rw [hscan]
    dsimp only
    rw [hsplit]
    exact ⟨_, rfl, rfl, splitMax1_payload_ne_nil hsplit, rfl⟩
  · intro state lines upd0 l m payload hstate hscan hsplit
    have hcond : ¬(state ≠ JobState.run_done ∧ state ≠ JobState.run_error) := by
      rcases hstate with h | h <;> simp [h]
    unfold read_pyapp_result
    rw [if_neg (by simp), if_neg hcond]
    dsimp only
    rw [hscan]
    dsimp only
    rw [hsplit]
    exact ⟨_, rfl, rfl, splitMax1_payload_ne_nil hsplit, rfl⟩
  · intro app_type state jobOut upd0 h1 h2
    unfold read_pyapp_result
    by_cases ha : app_type = AppType.py_func
    · rw [if_neg (by simp [ha]), if_pos ⟨h1, h2⟩]
    · rw [if_pos ha]

/-- C4 witness: the sentinel theorem applied to a concrete one-line log
containing `BALSAM-RETURN-VALUE gAU=` in state `run_done`. -/
theorem read_pyapp_result_sentinels_witness :
    ∃ u, read_pyapp_result AppType.py_func JobState.run_done (some [pyappDemoLine]) none =
        Except.ok (some u) ∧
      u.serialized_return_value = some "gAU=".toList ∧ "gAU=".toList ≠ [] ∧
      u.serialized_exception = some [] :=
  read_pyapp_result_sentinels.1 JobState.run_done [pyappDemoLine] none pyappDemoLine
    ret_marker "gAU=".toList (Or.inl rfl) (by decide) (by decide)

/-- C7: `_parse_job_status` raises a `ValueError` identifying the actual and
expected column counts whenever they differ, and a status record is produced
only when the counts are equal. -/
theorem parse_job_status_column_check :
    (∀ (fields : List (List Char)) (sfs : List String) (st0 : StatusDict),
      fields.length ≠ sfs.length →
      parse_job_status fields sfs st0 =
        Except.error (PyErr.valueErrorColumns fields.length sfs.length)) ∧
    (∀ (fields : List (List Char)) (sfs : List String) (st0 : StatusDict)
        (st : SchedulerJobStatus),
      parse_job_status fields sfs st0 = Except.ok st →
      fields.length = sfs.length) := by
  constructor
  · intro fields sfs st0 hne
    unfold parse_job_status
    rw [if_pos hne]
  · intro fields sfs st0 st h
    unfold parse_job_status at h
    by_cases hlen : fields.length ≠ sfs.length
    · rw [if_pos hlen] at h
      exact absurd h (by simp)
    · exact not_not.mp hlen

/-- C7 witness: a one-column line against the running field set (8 fields)
is rejected with the column counts in the error. -/
theorem parse_job_status_column_check_witness :
    parse_job_status [['1']] status_run_fields runSeed =
      Except.error (PyErr.valueErrorColumns 1 8) := by
  have h := parse_job_status_column_check.1 [['1']] status_run_fields runSeed (by decide)
  simpa using h

/-- Helper for C6: a field assignment for any name other than `"state"`
leaves the accumulated `state` entry unchanged. -/
theorem applyField_state_eq {st st2 : StatusDict} {name : String} {v : List Char}
    (h : applyField st name v = some st2) (hn : name ≠ "state") :
    st2.state = st.state := by
  unfold applyField at h
  by_cases h1 : name = "scheduler_id"
  · rw [if_pos h1] at h
    obtain ⟨x, -, rfl⟩ := Option.map_eq_some'.mp h
    rfl
  rw [if_neg h1] at h
  rw [if_neg hn] at h
  by_cases h3 : name = "username"
  · rw [if_pos h3] at h
    obtain rfl := Option.some_inj.mp h
    rfl
  rw [if_neg h3] at h
  by_cases h4 : name = "queue"
  · rw [if_pos h4] at h
    obtain rfl := Option.some_inj.mp h
    rfl
  rw [if_neg h4] at h
  by_cases h5 : name = "num_nodes"
  · rw [if_pos h5] at h
    by_cases hd : v = ['-']
    · rw [if_pos hd] at h
      obtain rfl := Option.some_inj.mp h
      rfl
    · rw [if_neg hd] at h
      obtain ⟨x, -, rfl⟩ := Option.map_eq_some'.mp h
      rfl
  rw [if_neg h5] at h
  by_cases h6 : name = "wall_time_min"
  · rw [if_pos h6] at h
    obtain ⟨x, -, rfl⟩ := Option.map_eq_some'.mp h
    rfl
  rw [if_neg h6] at h
  by_cases h7 : name = "start_time"
  · rw [if_pos h7] at h
    obtain ⟨x, -, rfl⟩ := Option.map_eq_some'.mp h
    rfl
  rw [if_neg h7] at h
  by_cases h8 : name = "queue_time"
  · rw [if_pos h8] at h
    obtain ⟨x, -, rfl⟩ := Option.map_eq_some'.mp h
    rfl
  rw [if_neg h8] at h
  by_cases h9 : name = "time_remaining_min"
  · rw [if_pos h9] at h
    obtain ⟨x, -, rfl⟩ := Option.map_eq_some'.mp h
    rfl
  rw [if_neg h9] at h
  by_cases h10 : name = "project"
  · rw [if_pos h10] at h
    obtain rfl := Option.some_inj.mp h
    rfl
  rw [if_neg h10] at h
  by_cases h11 : name = "jobname"
  · rw [if_pos h11] at h
    obtain rfl := Option.some_inj.mp h
    rfl
  rw [if_neg h11] at h
  obtain rfl := Option.some_inj.mp h
  rfl

/-- Helper for C6: the field loop never touches `state` unless the name
`"state"` occurs among the assigned pairs. -/
theorem applyAll_state_eq :
    ∀ (pairs : List (String × List Char)) (st st2 : StatusDict),
      applyAll st pairs = Except.ok st2 → (∀ p ∈ pairs, p.1 ≠ "state") →
      st2.state = st.state := by
  intro pairs
  induction pairs with
  | nil =>
    intro st st2 h _
    unfold applyAll at h
    cases h
    rfl
  | cons p rest ih =>
    intro st st2 h hn
    rcases p with ⟨n, v⟩
    unfold applyAll at h
    cases hf : applyField st n v with
    | none => rw [hf] at h; simp at h
    | some stm =>
      rw [hf] at h
      have h1 : stm.state = st.state :=
        applyField_state_eq hf (hn (n, v) (List.mem_cons_self _ _))
      have h2 : st2.state = stm.state :=
        ih stm st2 h (fun q hq => hn q (List.mem_cons_of_mem _ hq))
      rw [h2, h1]

/-- Helper for C6: the constructed DTO's state is the dict's state entry. -/
theorem mkStatus_state {st : StatusDict} {rec : SchedulerJobStatus}
    (h : mkStatus st = Except.ok rec) : some rec.state = st.state := by
  unfold mkStatus at h
  split at h
  · next i s q p n w t h1 h2 h3 h4 h5 h6 h7 =>
    cases h
    rw [h2]
  · simp at h

/-- Helper for C6: a successful `_parse_job_status` keeps the seed's state
whenever `"state"` is not among the field names — so the canonical state of
every record is the one seeded for its section. -/
theorem parse_job_status_state {fields : List (List Char)} {names : List String}
    {seed : StatusDict} {st : SchedulerJobStatus}
    (h : parse_job_status fields names seed = Except.ok st)
    (hn : "state" ∉ names) : some st.state = seed.state := by
  unfold parse_job_status at h
  by_cases hlen : fields.length ≠ names.length
  · rw [if_pos hlen] at h
    exact absurd h (by simp)
  · rw [if_neg hlen] at h
    cases ha : applyAll seed (names.zip fields) with
    | error e => rw [ha] at h; simp at h
    | ok st2 =>
      rw [ha] at h
      have h1 : st2.state = seed.state := by
        refine applyAll_state_eq _ _ _ ha ?_
        intro q hq hc
        rcases q with ⟨a, b⟩
        have hmem := (List.of_mem_zip hq).1
        simp only at hc
        rw [hc] at hmem
        exact hn hmem
      have h2 := mkStatus_state (by simpa using h)
      rw [h2, h1]

/-- Helper for C6: `dict[k] = v` on a fresh key appends. -/
theorem dictInsert_not_mem (d : List (Int × SchedulerJobStatus)) (k : Int)
    (v : SchedulerJobStatus) (h : k ∉ d.map Prod.fst) :
    dictInsert d k v = d ++ [(k, v)] := by
  induction d with
  | nil => rfl
  | cons p rest ih =>
    rcases p with ⟨k2, v2⟩
    obtain ⟨hk, h2⟩ : k ≠ k2 ∧ k ∉ rest.map Prod.fst := by simpa using h
    simp only [dictInsert]
    rw [if_neg (fun he => hk he.symm), ih h2]
    rfl

/-- Helper for C6: the loop on a recognised separator line. -/
theorem parseLoop_sep (m m2 : ScanMode) (acc : List (Int × SchedulerJobStatus))
    (l : List Char) (rest : List (List Char))
    (h1 : isSepLine l = true) (h2 : sepMode l = Except.ok m2) :
    parseLoop m acc (l :: rest) = parseLoop m2 acc rest := by
  simp [parseLoop, h1, h2]

/-- Helper for C6: the loop skips a header line. -/
theorem parseLoop_header (m : ScanMode) (acc : List (Int × SchedulerJobStatus))
    (l : List Char) (rest : List (List Char))
    (h1 : isSepLine l = false) (h2 : isHeaderLine l = true) :
    parseLoop m acc (l :: rest) = parseLoop m acc rest := by
  simp [parseLoop, h1, h2]

/-- Helper for C6: the loop on a successfully parsed data line. -/
theorem parseLoop_data (m : ScanMode) (acc : List (Int × SchedulerJobStatus))
    (l : List Char) (rest : List (List Char)) (st : SchedulerJobStatus)
    (h1 : isSepLine l = false) (h2 : isHeaderLine l = false)
    (h3 : parseDataLine m l = Except.ok st) :
    parseLoop m acc (l :: rest) = parseLoop m (dictInsert acc st.scheduler_id st) rest := by
  simp [parseLoop, h1, h2, h3]

/-- Helper for C6: a block of well-formed data lines with fresh, distinct
ids extends the status dict by exactly one appended record per line. -/
theorem parseLoop_good_section (m : ScanMode) (ls : List (List Char)) (ids : List Int)
    (rest : List (List Char)) (hall : List.Forall₂ (GoodDataLine m) ls ids) :
    ∀ acc : List (Int × SchedulerJobStatus), ids.Nodup →
      (∀ i ∈ ids, i ∉ acc.map Prod.fst) →
      ∃ recs, parseLoop m acc (ls ++ rest) = parseLoop m (acc ++ recs) rest ∧
        recs.map Prod.fst = ids ∧
        ∀ pr ∈ recs, ∃ l ∈ ls, parseDataLine m l = Except.ok pr.2 ∧
          pr.1 = pr.2.scheduler_id := by
  induction hall with
  | nil =>
    intro acc _ _
    exact ⟨[], by simp, rfl, by simp⟩
  | @cons l i ls2 ids2 hli hrest ih =>
    intro acc hnd hfresh
    obtain ⟨hsep, hhdr, hid⟩ := hli
    obtain ⟨st, hst, hstid⟩ : ∃ st, parseDataLine m l = Except.ok st ∧ st.scheduler_id = i := by
      cases hpd : parseDataLine m l with
      | ok st =>
        rw [hpd] at hid
        exact ⟨st, rfl, by simpa [statusIdOf] using hid⟩
      | error e =>
        rw [hpd] at hid
        simp [statusIdOf] at hid
    have hfresh_i : i ∉ acc.map Prod.fst := hfresh i (List.mem_cons_self _ _)
    have hnd2 : ids2.Nodup := (List.nodup_cons.mp hnd).2
    have hi_not : i ∉ ids2 := (List.nodup_cons.mp hnd).1
    have hstep : parseLoop m acc ((l :: ls2) ++ rest) =
        parseLoop m (acc ++ [(i, st)]) (ls2 ++ rest) := by
      rw [List.cons_append, parseLoop_data m acc l (ls2 ++ rest) st hsep hhdr hst,
        hstid, dictInsert_not_mem acc i st hfresh_i]
    have hfresh2 : ∀ j ∈ ids2, j ∉ (acc ++ [(i, st)]).map Prod.fst := by
      intro j hj
      simp only [List.map_append, List.mem_append]
      rintro (hc | hc)
      · exact hfresh j (List.mem_cons_of_mem _ hj) hc
      · have : j = i := by simpa using hc
        exact hi_not (this ▸ hj)
    obtain ⟨recs2, heq, hmap, hsrc⟩ := ih (acc ++ [(i, st)]) hnd2 hfresh2
    refine ⟨(i, st) :: recs2, ?_, ?_, ?_⟩
    · rw [hstep, heq]
      congr 1
      simp
    · simp [hmap]
    · intro pr hpr
      rcases List.mem_cons.mp hpr with rfl | hm
      · exact ⟨l, List.mem_cons_self _ _, hst, hstid.symm⟩
      · obtain ⟨l2, hl2, ha, hb⟩ := hsrc pr hm
        exact ⟨l2, List.mem_cons_of_mem _ hl2, ha, hb⟩

/-- C6: for well-formed scheduler status text laid out as a Running section
(separator, header, R good data lines), an Eligible section (P lines) and a
Blocked section (B lines), all ids distinct, `_parse_status_output` returns
exactly R+P+B records keyed by those ids, where running entries carry
canonical state `running`, eligible entries `queued`, and blocked entries
`submit_failed`. -/
theorem parse_status_sections
    (raw : String)
    (sep1 hdr1 sep2 hdr2 sep3 hdr3 : List Char)
    (rls pls bls : List (List Char)) (rids pids bids : List Int)
    (h1 : RunSepLine sep1) (h2 : EligSepLine sep2) (h3 : BlockSepLine sep3)
    (hh1 : HeaderLine hdr1) (hh2 : HeaderLine hdr2) (hh3 : HeaderLine hdr3)
    (hr : List.Forall₂ (GoodDataLine ScanMode.run) rls rids)
    (hp : List.Forall₂ (GoodDataLine ScanMode.pend) pls pids)
    (hb : List.Forall₂ (GoodDataLine ScanMode.block) bls bids)
    (hnd : (rids ++ pids ++ bids).Nodup)
    (hraw : splitOnChar '\n' (pyStrip raw.toList) =
      sep1 :: hdr1 :: (rls ++ sep2 :: hdr2 :: (pls ++ sep3 :: hdr3 :: bls))) :
    ∃ d1 d2 d3,
      parse_status_output raw = Except.ok (d1 ++ d2 ++ d3) ∧
      d1.length = rls.length ∧ d2.length = pls.length ∧ d3.length = bls.length ∧
      d1.map Prod.fst = rids ∧ d2.map Prod.fst = pids ∧ d3.map Prod.fst = bids ∧
      ((d1 ++ d2 ++ d3).map Prod.fst).Nodup ∧
      (∀ pr ∈ d1, pr.2.state = "running".toList) ∧
      (∀ pr ∈ d2, pr.2.state = "queued".toList) ∧
      (∀ pr ∈ d3, pr.2.state = "submit_failed".toList) := by
  have hsm1 : sepMode sep1 = Except.ok ScanMode.run := by
    unfold sepMode
    rw [if_pos h1.2]
  have hsm2 : sepMode sep2 = Except.ok ScanMode.pend := by
    unfold sepMode
    rw [if_neg (by rw [h2.2.1]; simp), if_pos h2.2.2]
  have hsm3 : sepMode sep3 = Except.ok ScanMode.block := by
    unfold sepMode
    rw [if_neg (by rw [h3.2.1]; simp), if_neg (by rw [h3.2.2.1]; simp), if_pos h3.2.2.2]
  have hnd0 := hnd
  rw [List.nodup_append] at hnd
  obtain ⟨hnd_rp, hnd_b, hdisj_rpb⟩ := hnd
  have hnd_rp0 := hnd_rp
  rw [List.nodup_append] at hnd_rp
  obtain ⟨hnd_r, hnd_p, hdisj_rp⟩ := hnd_rp
  obtain ⟨recs1, heq1, hmap1, hsrc1⟩ :=
    parseLoop_good_section ScanMode.run rls rids
      (sep2 :: hdr2 :: (pls ++ sep3 :: hdr3 :: bls)) hr [] hnd_r (by simp)
  have hfresh2 : ∀ i ∈ pids, i ∉ recs1.map Prod.fst := by
    intro i hi
    rw [hmap1]
    intro hc
    exact hdisj_rp hc hi
  obtain ⟨recs2, heq2, hmap2, hsrc2⟩ :=
    parseLoop_good_section ScanMode.pend pls pids
      (sep3 :: hdr3 :: bls) hp recs1 hnd_p hfresh2
  have hfresh3 : ∀ i ∈ bids, i ∉ (recs1 ++ recs2).map Prod.fst := by
    intro i hi
    rw [List.map_append, hmap1, hmap2]
    intro hc
    exact hdisj_rpb hc hi
  obtain ⟨recs3, heq3, hmap3, hsrc3⟩ :=
    parseLoop_good_section ScanMode.block bls bids [] hb (recs1 ++ recs2) hnd_b hfresh3
  refine ⟨recs1, recs2, recs3, ?_, ?_, ?_, ?_, hmap1, hmap2, hmap3, ?_, ?_, ?_, ?_⟩
  · unfold parse_status_output
    rw [hraw]
    rw [parseLoop_sep ScanMode.start ScanMode.run [] sep1 _ h1.1 hsm1]
    rw [parseLoop_header ScanMode.run [] hdr1 _ hh1.1 hh1.2]
    rw [heq1, List.nil_append]
    rw [parseLoop_sep ScanMode.run ScanMode.pend recs1 sep2 _ h2.1 hsm2]
    rw [parseLoop_header ScanMode.pend recs1 hdr2 _ hh2.1 hh2.2]
    rw [heq2]
    rw [parseLoop_sep ScanMode.pend ScanMode.block (recs1 ++ recs2) sep3 _ h3.1 hsm3]
    rw [parseLoop_header ScanMode.block (recs1 ++ recs2) hdr3 _ hh3.1 hh3.2]
    rw [← List.append_nil bls, heq3]
    rfl
  · rw [show recs1.length = rids.length by rw [← hmap1]; simp]
    exact hr.length_eq.symm
  · rw [show recs2.length = pids.length by rw [← hmap2]; simp]
    exact hp.length_eq.symm
  · rw [show recs3.length = bids.length by rw [← hmap3]; simp]
    exact hb.length_eq.symm
  · rw [List.map_append, List.map_append, hmap1, hmap2, hmap3]
    exact hnd0
  · intro pr hpr
    obtain ⟨l, -, hok, -⟩ := hsrc1 pr hpr
    have hok2 : parse_job_status (rejoinDateTime (wsSplit l)) status_run_fields runSeed =
        Except.ok pr.2 := by simpa [parseDataLine] using hok
    have hst := parse_job_status_state hok2 (by decide)
    simpa [runSeed] using hst
  · intro pr hpr
    obtain ⟨l, -, hok, -⟩ := hsrc2 pr hpr
    have hok2 : parse_job_status (rejoinDateTime (wsSplit l)) status_pend_fields pendSeed =
        Except.ok pr.2 := by simpa [parseDataLine] using hok
    have hst := parse_job_status_state hok2 (by decide)
    simpa [pendSeed] using hst
  · intro pr hpr
    obtain ⟨l, -, hok, -⟩ := hsrc3 pr hpr
    have hok2 : parse_job_status (rejoinBlock (wsSplit l)) status_block_fields blockSeed =
        Except.ok pr.2 := by simpa [parseDataLine] using hok
    have hst := parse_job_status_state hok2 (by decide)
    simpa [blockSeed] using hst

/-- C6 witness: the section theorem applied to a concrete three-section
status text with one running, one eligible, and one blocked job. -/
theorem parse_status_sections_witness :
    ∃ d1 d2 d3,
      parse_status_output wStatusRaw = Except.ok (d1 ++ d2 ++ d3) ∧
      d1.length = [wRun1].length ∧ d2.length = [wPend1].length ∧
      d3.length = [wBlock1].length ∧
      d1.map Prod.fst = [697013] ∧ d2.map Prod.fst = [696996] ∧
      d3.map Prod.fst = [696000] ∧
      ((d1 ++ d2 ++ d3).map Prod.fst).Nodup ∧
      (∀ pr ∈ d1, pr.2.state = "running".toList) ∧
      (∀ pr ∈ d2, pr.2.state = "queued".toList) ∧
      (∀ pr ∈ d3, pr.2.state = "submit_failed".toList) :=
  parse_status_sections wStatusRaw wSep1 wHdr1 wSep2 wHdr2 wSep3 wHdr3
    [wRun1] [wPend1] [wBlock1] [697013] [696996] [696000]
    (by decide) (by decide) (by decide) (by decide) (by decide) (by decide)
    (List.Forall₂.cons (by decide) List.Forall₂.nil)
    (List.Forall₂.cons (by decide) List.Forall₂.nil)
    (List.Forall₂.cons (by decide) List.Forall₂.nil)
    (by decide) (by decide)

/-- Helper for C10: a loop returning a result steps over its first line. -/
theorem parseLoop_ok_step {m : ScanMode} {acc : List (Int × SchedulerJobStatus)}
    {s : List Char} {rest : List (List Char)} {d : List (Int × SchedulerJobStatus)}
    (h : parseLoop m acc (s :: rest) = Except.ok d) :
    ∃ m2 acc2, parseLoop m2 acc2 rest = Except.ok d := by
  unfold parseLoop at h
  by_cases hs : isSepLine s = true
  · rw [if_pos hs] at h
    cases hsm : sepMode s with
    | error e => rw [hsm] at h; simp at h
    | ok m2 => rw [hsm] at h; exact ⟨m2, acc, h⟩
  · rw [if_neg hs] at h
    by_cases hh : isHeaderLine s = true
    · rw [if_pos hh] at h
      exact ⟨m, acc, h⟩
    · rw [if_neg hh] at h
      cases hp : parseDataLine m s with
      | error e => rw [hp] at h; simp at h
      | ok st => rw [hp] at h; exact ⟨m, dictInsert acc st.scheduler_id st, h⟩

/-- Helper for C10: stepping over a non-separator line keeps the mode. -/
theorem parseLoop_ok_step_nosep {m : ScanMode} {acc : List (Int × SchedulerJobStatus)}
    {s : List Char} {rest : List (List Char)} {d : List (Int × SchedulerJobStatus)}
    (h : parseLoop m acc (s :: rest) = Except.ok d) (hs : isSepLine s = false) :
    ∃ acc2, parseLoop m acc2 rest = Except.ok d := by
  unfold parseLoop at h
  rw [if_neg (by simp [hs])] at h
  by_cases hh : isHeaderLine s = true
  · rw [if_pos hh] at h
    exact ⟨acc, h⟩
  · rw [if_neg hh] at h
    cases hp : parseDataLine m s with
    | error e => rw [hp] at h; simp at h
    | ok st => rw [hp] at h; exact ⟨dictInsert acc st.scheduler_id st, h⟩

/-- Helper for C10: a result implies every separator line is recognised. -/
theorem parseLoop_ok_sep_recognised :
    ∀ (pre : List (List Char)) (m : ScanMode) (acc : List (Int × SchedulerJobStatus))
      (d : List (Int × SchedulerJobStatus)) (l : List Char) (post : List (List Char)),
      parseLoop m acc (pre ++ l :: post) = Except.ok d → isSepLine l = true →
      (containsTok "Running".toList l = true ∨ containsTok "Eligible".toList l = true ∨
       containsTok "Blocked".toList l = true)
  | [], m, acc, d, l, post, h, hsep => by
    rw [List.nil_append] at h
    unfold parseLoop at h
    rw [if_pos hsep] at h
    by_cases c1 : containsTok "Running".toList l = true
    · exact Or.inl c1
    by_cases c2 : containsTok "Eligible".toList l = true
    · exact Or.inr (Or.inl c2)
    by_cases c3 : containsTok "Blocked".toList l = true
    · exact Or.inr (Or.inr c3)
    exfalso
    have hsm : sepMode l = Except.error PyErr.notImplementedError := by
      unfold sepMode
      rw [if_neg c1, if_neg c2, if_neg c3]
    rw [hsm] at h
    simp at h
  | s :: pre2, m, acc, d, l, post, h, hsep => by
    rw [List.cons_append] at h
    obtain ⟨m2, acc2, h2⟩ := parseLoop_ok_step h
    exact parseLoop_ok_sep_recognised pre2 m2 acc2 d l post h2 hsep

/-- Helper for C10: a result implies every data line reached while no
section is active is impossible — a data line is preceded by a recognised
separator unless the mode is already a section. -/
theorem parseLoop_ok_data_after_sep :
    ∀ (pre : List (List Char)) (m : ScanMode) (acc : List (Int × SchedulerJobStatus))
      (d : List (Int × SchedulerJobStatus)) (l : List Char) (post : List (List Char)),
      parseLoop m acc (pre ++ l :: post) = Except.ok d →
      isSepLine l = false → isHeaderLine l = false →
      (∃ s ∈ pre, isSepLine s = true ∧ ∃ m2, sepMode s = Except.ok m2) ∨
        m ≠ ScanMode.start
  | [], m, acc, d, l, post, h, hs, hh => by
    by_cases hm : m = ScanMode.start
    · subst hm
      exfalso
      rw [List.nil_append] at h
      unfold parseLoop at h
      rw [if_neg (by simp [hs]), if_neg (by simp [hh])] at h
      rw [show parseDataLine ScanMode.start l = Except.error PyErr.notImplementedError
        from rfl] at h
      simp at h
    · exact Or.inr hm
  | s :: pre2, m, acc, d, l, post, h, hs, hh => by
    rw [List.cons_append] at h
    by_cases hsep : isSepLine s = true
    · unfold parseLoop at h
      rw [if_pos hsep] at h
      cases hsm : sepMode s with
      | error e => rw [hsm] at h; simp at h
      | ok m2 => exact Or.inl ⟨s, List.mem_cons_self _ _, hsep, m2, hsm⟩
    · have hs2 : isSepLine s = false := by simpa using hsep
      obtain ⟨acc2, h2⟩ := parseLoop_ok_step_nosep h hs2
      rcases parseLoop_ok_data_after_sep pre2 m acc2 d l post h2 hs hh with
        ⟨s2, hmem, hrec⟩ | hm
      · exact Or.inl ⟨s2, List.mem_cons_of_mem _ hmem, hrec⟩
      · exact Or.inr hm

/-- C10: (i) a `----` separator line naming none of Running / Eligible /
Blocked makes the loop raise `NotImplementedError`; (ii) a non-separator,
non-header data line reached while no section is active (the initial mode of
`_parse_status_output`) raises `NotImplementedError`; (iii) whenever
`_parse_status_output` returns a result, every separator line of the input
names a recognised section, and every data line is preceded by a recognised
separator. -/
theorem parse_status_rejects :
    (∀ (m : ScanMode) (acc : List (Int × SchedulerJobStatus)) (l : List Char)
        (rest : List (List Char)),
      isSepLine l = true →
      containsTok "Running".toList l = false →
      containsTok "Eligible".toList l = false →
      containsTok "Blocked".toList l = false →
      parseLoop m acc (l :: rest) = Except.error PyErr.notImplementedError) ∧
    (∀ (acc : List (Int × SchedulerJobStatus)) (l : List Char) (rest : List (List Char)),
      isSepLine l = false → isHeaderLine l = false →
      parseLoop ScanMode.start acc (l :: rest) = Except.error PyErr.notImplementedError) ∧
    (∀ (raw : String) (d : List (Int × SchedulerJobStatus)),
      parse_status_output raw = Except.ok d →
      (∀ pre l post, splitOnChar '\n' (pyStrip raw.toList) = pre ++ l :: post →
        isSepLine l = true →
        (containsTok "Running".toList l = true ∨ containsTok "Eligible".toList l = true ∨
         containsTok "Blocked".toList l = true)) ∧
      (∀ pre l post, splitOnChar '\n' (pyStrip raw.toList) = pre ++ l :: post →
        isSepLine l = false → isHeaderLine l = false →
        ∃ s ∈ pre, isSepLine s = true ∧ ∃ m2, sepMode s = Except.ok m2)) := by
  refine ⟨?_, ?_, ?_⟩
  · intro m acc l rest hsep c1 c2 c3
    have hsm : sepMode l = Except.error PyErr.notImplementedError := by
      unfold sepMode
      rw [if_neg (by rw [c1]; simp), if_neg (by rw [c2]; simp), if_neg (by rw [c3]; simp)]
    simp [parseLoop, hsep, hsm]
  · intro acc l rest hs hh
    simp [parseLoop, hs, hh, parseDataLine]
  · intro raw d h
    unfold parse_status_output at h
    constructor
    · intro pre l post hsplit hsep
      rw [hsplit] at h
      exact parseLoop_ok_sep_recognised pre ScanMode.start [] d l post h hsep
    · intro pre l post hsplit hs hh
      rw [hsplit] at h
      rcases parseLoop_ok_data_after_sep pre ScanMode.start [] d l post h hs hh with
        hex | hm
      · exact hex
      · exact absurd rfl hm

/-- C10 witness: a separator naming an unrecognised section ("Held"), and a
data line before any separator, both raise `NotImplementedError`. -/
theorem parse_status_rejects_witness :
    parseLoop ScanMode.start [] ["---- Held Jobs: 2 ----".toList] =
      Except.error PyErr.notImplementedError ∧
    parseLoop ScanMode.start [] ["697013 parton batch".toList] =
      Except.error PyErr.notImplementedError :=
  ⟨parse_status_rejects.1 ScanMode.start [] "---- Held Jobs: 2 ----".toList []
      (by decide) (by decide) (by decide) (by decide),
   parse_status_rejects.2.1 [] "697013 parton batch".toList []
      (by decide) (by decide)⟩
